import Mathlib

/-!
Verification of the article persistence and admin-authentication core of the
Personal_Blog repository, as a shallow embedding in Lean 4.

Modelling conventions:
* Python strings are lists of Unicode code points (`PyStr := List Nat`);
  `str.strip()` and `str.lower()` are modelled on code points (`pyStrip`,
  `pyLower`, ASCII case folding as in the data actually handled).
* The article data directory is modelled as a finite map from slug to file
  content (`FS`), or as a list of named files where enumeration order matters.
* `datetime.utcnow()` timestamps are modelled as natural numbers supplied by a
  monotone clock; ISO-8601 rendering at a fixed precision is order-preserving,
  so the numeric order faithfully represents timestamp comparison.
* PBKDF2-HMAC-SHA256 is modelled as iteration of an abstract pseudo-random
  function, which keeps exactly the structure the claims depend on (the
  digest is determined by password, salt and iteration count).
-/

/-- Python strings, modelled as lists of Unicode code points. -/
abbrev PyStr := List Nat

/-- Code points removed by default by Python's str.strip: ASCII whitespace. -/
def isSpaceChar (c : Nat) : Bool :=
  c = 32 || c = 9 || c = 10 || c = 13 || c = 11 || c = 12

/-- Model of str.lstrip on one side: drop leading whitespace. -/
def lstrip (s : PyStr) : PyStr := s.dropWhile isSpaceChar

/-- Model of str.rstrip: drop trailing whitespace. -/
def rstrip (s : PyStr) : PyStr := ((s.reverse).dropWhile isSpaceChar).reverse

/-- Model of Python str.strip(): drop leading and trailing whitespace. -/
def pyStrip (s : PyStr) : PyStr := rstrip (lstrip s)

/-- Model of Python str.lower() on one code point (ASCII case folding). -/
def lowerChar (c : Nat) : Nat := if 65 ≤ c ∧ c ≤ 90 then c + 32 else c

/-- Model of Python str.lower(). -/
def pyLower (s : PyStr) : PyStr := s.map lowerChar

/-- Worker for dict.fromkeys-based deduplication, tracking already-seen keys. -/
def pyDedupAux {α : Type} [DecidableEq α] (seen : List α) : List α → List α
  | [] => []
  | a :: l => if a ∈ seen then pyDedupAux seen l else a :: pyDedupAux (a :: seen) l

/-- Model of dict.fromkeys-based deduplication: keep the first occurrence of
each element, preserving first-seen order. -/
def pyDedup {α : Type} [DecidableEq α] (l : List α) : List α := pyDedupAux [] l

/-- Processing of one entry of the tag list in normalize_tags: non-string
entries (`none`) are dropped, strings are stripped and lowercased, and empty
results are dropped. -/
def normalizeOne (t : Option PyStr) : Option PyStr :=
  match t with
  | none => none
  | some s =>
    let tx := pyLower (pyStrip s)
    if tx = [] then none else some tx

/-- Model of normalize_tags (src/app/utils/validators.py): trim and lowercase
each string entry, drop non-strings and empties, deduplicate keeping first
occurrences, and return the result sorted lexicographically. -/
def normalize_tags (tags : List (Option PyStr)) : List PyStr :=
  List.insertionSort (· ≤ ·) (pyDedup (tags.filterMap normalizeOne))

/-- Characters allowed inside a slug segment: lowercase ASCII letters and
digits, as in the character class of SLUG_RE. -/
def slugChar (c : Nat) : Bool := (97 ≤ c && c ≤ 122) || (48 ≤ c && c ≤ 57)

/-- Model of validate_slug (src/app/utils/validators.py): the string is
non-empty and matches the kebab-case regex: splitting on the hyphen
(code point 45) yields only non-empty runs of slug characters. -/
def validate_slug (s : PyStr) : Bool :=
  decide (s ≠ []) &&
    (s.splitOn 45).all (fun seg => decide (seg ≠ []) && seg.all slugChar)

/-- Model of validate_title (src/app/utils/validators.py): the string is
non-empty and its trimmed length is between 1 and 200 inclusive. -/
def validate_title (s : PyStr) : Bool :=
  decide (s ≠ []) && decide (1 ≤ (pyStrip s).length) &&
    decide ((pyStrip s).length ≤ 200)

/-- Model of hashlib.pbkdf2_hmac for SHA-256: the derived key is determined by
the password, the salt and the iteration count, and is obtained by iterating
an abstract pseudo-random function `prf` that many times on a seed built from
the password and the salt. The claims depend only on this structure. -/
def pbkdf2_hmac (prf : Nat → Nat) (password salt : Nat) (iterations : Nat) :
    Nat :=
  prf^[iterations] (Nat.pair password salt)

/-- Model of hash_password (src/app/utils/security.py): derive the key from
the password and a fresh random salt with 600000 iterations and return the
salt-digest pair (the salt and the hexdigest joined by a dollar sign in the
code). The salt, produced by secrets.token_hex, is a parameter. -/
def hash_password (prf : Nat → Nat) (salt : Nat) (password : Nat) :
    Nat × Nat :=
  (salt, pbkdf2_hmac prf password salt 600000)

/-- Model of check_password (src/app/utils/security.py): split the stored
value into salt and digest, re-derive the key from the submitted password and
that salt with 100000 iterations, and compare with the stored digest. -/
def check_password (prf : Nat → Nat) (stored : Nat × Nat) (password : Nat) :
    Bool :=
  pbkdf2_hmac prf password stored.1 100000 == stored.2

/-- Errors raised by the article model (src/app/models/exceptions.py). -/
inductive ArtError
  | notFound
  | validationError
deriving DecidableEq

/-- In-memory Article record (src/app/models/article.py). Timestamps are
naturals: the ISO-8601 rendering used by the code is order-preserving. -/
structure Article where
  slug : PyStr
  title : PyStr
  excerpt : PyStr
  content : PyStr
  tags : List PyStr
  published : Bool
  created_at : Nat
  updated_at : Nat
deriving DecidableEq

/-- JSON object read from or written to an article file: each key of to_dict,
possibly absent. -/
structure ArticleDict where
  slug : Option PyStr := none
  title : Option PyStr := none
  excerpt : Option PyStr := none
  content : Option PyStr := none
  tags : Option (List PyStr) := none
  published : Option Bool := none
  created_at : Option Nat := none
  updated_at : Option Nat := none
deriving DecidableEq

/-- Model of Article.to_dict: every key is written. -/
def Article.to_dict (a : Article) : ArticleDict :=
  { slug := some a.slug, title := some a.title, excerpt := some a.excerpt,
    content := some a.content, tags := some a.tags,
    published := some a.published, created_at := some a.created_at,
    updated_at := some a.updated_at }

/-- Python truthiness of an optional string field: the key is present and its
value is a non-empty string. -/
def truthyStr : Option PyStr → Bool
  | none => false
  | some s => decide (s ≠ [])

/-- Model of Article.from_dict: each of slug, title, excerpt, content must be
present and truthy (a non-empty string); otherwise a ValidationError is
raised. Absent tags default to the empty list, absent published to false, and
absent timestamps to the current clock value `now`. -/
def Article.from_dict (d : ArticleDict) (now : Nat) : Except ArtError Article :=
  if truthyStr d.slug && truthyStr d.title &&
      truthyStr d.excerpt && truthyStr d.content then
    .ok { slug := d.slug.getD [], title := d.title.getD [],
          excerpt := d.excerpt.getD [], content := d.content.getD [],
          tags := d.tags.getD [], published := d.published.getD false,
          created_at := d.created_at.getD now,
          updated_at := d.updated_at.getD now }
  else .error .validationError

/-- Content of one on-disk article file: either text rejected by json.loads,
or a parsed JSON object with the article keys. -/
inductive FileContent
  | malformed
  | json (d : ArticleDict)
deriving DecidableEq

/-- The article data directory, as a map from slug to the content of the file
named after it. -/
def FS : Type := PyStr → Option FileContent

/-- Pointwise update of the data directory. -/
def FS.update (fs : FS) (slug : PyStr) (c : Option FileContent) : FS :=
  fun s => if s = slug then c else fs s

/-- Model of Article.save: refresh updated_at from the clock, serialize
to_dict, and atomically write it to the file named after the slug. Returns
the mutated record and the new directory state. -/
def Article.save (a : Article) (now : Nat) (fs : FS) : Article × FS :=
  let a2 := { a with updated_at := now }
  (a2, fs.update a.slug (some (.json a2.to_dict)))

/-- Model of Article.load: ArticleNotFound if the file is absent, a
ValidationError if its JSON is malformed, otherwise from_dict. -/
def Article.load (fs : FS) (slug : PyStr) (now : Nat) :
    Except ArtError Article :=
  match fs slug with
  | none => .error .notFound
  | some .malformed => .error .validationError
  | some (.json d) => Article.from_dict d now

/-- Model of Article.delete: remove the backing file if it exists, otherwise
raise ArticleNotFound. The returned pair is the outcome and the directory
state after the call. -/
def Article.delete (fs : FS) (slug : PyStr) : Except ArtError Unit × FS :=
  match fs slug with
  | some _ => (.ok (), fs.update slug none)
  | none => (.error .notFound, fs)

/-- One save in a sequence of saves: the article part of the state is saved at
the given time into the directory part. -/
def saveStep (s : Article × FS) (t : Nat) : Article × FS :=
  s.1.save t s.2

/-- The data directory as the list of (file name stem, content) pairs
enumerated by DATA_DIR.glob, in file-system order. -/
abbrev DirListing := List (PyStr × FileContent)

/-- Parsing of one file inside Article.all: json.loads then from_dict, with
any failure turned into a skip. -/
def tryParse (now : Nat) (c : FileContent) : Option Article :=
  match c with
  | .malformed => none
  | .json d => (Article.from_dict d now).toOption

/-- Order used by sorted() on the globbed paths: compare file names. -/
def nameLe (x y : PyStr × FileContent) : Prop := x.1 ≤ y.1

instance : DecidableRel nameLe :=
  fun x y => inferInstanceAs (Decidable (x.1 ≤ y.1))

instance : IsTotal (PyStr × FileContent) nameLe :=
  ⟨fun x y => le_total x.1 y.1⟩

instance : IsTrans (PyStr × FileContent) nameLe :=
  ⟨fun _ _ _ h1 h2 => le_trans h1 h2⟩

/-- Model of Article.all: enumerate the *.json files in sorted file-name
order, parse each one, and silently skip any file that fails to parse or
validate. -/
def Article.all (dir : DirListing) (now : Nat) : List Article :=
  (List.insertionSort nameLe dir).filterMap (fun f => tryParse now f.2)

/-- Article.all keeping the source file name of each surviving record, used to
state the ordering of the result. -/
def allNamed (dir : DirListing) (now : Nat) : List (PyStr × Article) :=
  (List.insertionSort nameLe dir).filterMap
    (fun f => (tryParse now f.2).map (fun a => (f.1, a)))

/-- File system seen by atomic_write: a map from path to byte content. -/
abbrev ByteFS := PyStr → Option PyStr

/-- Pointwise update of a byte file system. -/
def writeUpdate (fs : ByteFS) (p : PyStr) (c : Option PyStr) : ByteFS :=
  fun q => if q = p then c else fs q

/-- Failure injected into one run of atomic_write: the body can raise at the
write to the temporary file or at the replace, or succeed. -/
inductive WriteFailure
  | ok
  | atWrite
  | atReplace
deriving DecidableEq

/-- Model of atomic_write (src/app/utils/file_ops.py): mkstemp creates the
fresh temporary file empty, the payload is written to it, and the temporary is
renamed over the target. The finally block runs on every path and unlinks the
temporary file if it still exists. An injected failure aborts the body at the
given step and makes the call return false. -/
def atomic_write (fs : ByteFS) (path tmp : PyStr) (data : PyStr)
    (fail : WriteFailure) : Bool × ByteFS :=
  let fs1 := writeUpdate fs tmp (some [])
  match fail with
  | .atWrite =>
      (false, if (fs1 tmp).isSome then writeUpdate fs1 tmp none else fs1)
  | .atReplace =>
      let fs2 := writeUpdate fs1 tmp (some data)
      (false, if (fs2 tmp).isSome then writeUpdate fs2 tmp none else fs2)
  | .ok =>
      let fs2 := writeUpdate fs1 tmp (some data)
      let fs3 := writeUpdate (writeUpdate fs2 path (some data)) tmp none
      (true, if (fs3 tmp).isSome then writeUpdate fs3 tmp none else fs3)

/-- Fields of the create-article form; an absent field reads as None. -/
structure Form where
  slug : Option PyStr := none
  title : Option PyStr := none
  excerpt : Option PyStr := none
  content : Option PyStr := none
  tags : Option PyStr := none

/-- Model of str.split on the comma (code point 44). -/
def splitComma (s : PyStr) : List PyStr := s.splitOn 44

/-- Model of create_from_form (src/app/services/article_service.py): strip the
form fields, split and normalize the tags, validate only the slug and the
title, then construct the record and save it. -/
def create_from_form (form : Form) (now : Nat) (fs : FS) :
    Except ArtError (Article × FS) :=
  let slug := pyStrip (form.slug.getD [])
  let title := pyStrip (form.title.getD [])
  let excerpt := pyStrip (form.excerpt.getD [])
  let content := pyStrip (form.content.getD [])
  let tags0 := (splitComma (form.tags.getD [])).filterMap
    (fun t => if pyStrip t = [] then none else some (pyStrip t))
  let tags := normalize_tags (tags0.map some)
  if ¬ validate_slug slug then .error .validationError
  else if ¬ validate_title title then .error .validationError
  else
    let a : Article :=
      { slug := slug, title := title, excerpt := excerpt,
        content := content, tags := tags, published := false,
        created_at := now, updated_at := now }
    .ok (a.save now fs)

/-- Result of an admin route handler, as seen by the client. -/
inductive HandlerResult
  | badRequest
  | serverError
  | redirectDashboard
deriving DecidableEq

/-- Model of _verify_csrf (src/app/routes/admin.py): the submitted token must
be truthy (present and non-empty) and equal to the token stored in the
session. -/
def verify_csrf (sessionToken : Option PyStr) (formToken : Option PyStr) :
    Bool :=
  match formToken with
  | none => false
  | some t => decide (t ≠ []) && decide (sessionToken = some t)

/-- Model of the POST branch of create_article (src/app/routes/admin.py):
CSRF check first, then create_from_form, translating a ValidationError into a
400 response. -/
def create_article_post (sessionToken : Option PyStr) (form : Form)
    (formToken : Option PyStr) (now : Nat) (fs : FS) : HandlerResult × FS :=
  if ¬ verify_csrf sessionToken formToken then (.badRequest, fs)
  else
    match create_from_form form now fs with
    | .error _ => (.badRequest, fs)
    | .ok (_, fs2) => (.redirectDashboard, fs2)

/-- Model of publish_article (src/app/routes/admin.py): CSRF check first, then
load, set published and save. A load failure escapes as an unhandled
exception (the except clause names ArticleNotFound, which is not imported in
that module), leaving the store unchanged. -/
def publish_article (sessionToken : Option PyStr) (slug : PyStr)
    (formToken : Option PyStr) (now : Nat) (fs : FS) : HandlerResult × FS :=
  if ¬ verify_csrf sessionToken formToken then (.badRequest, fs)
  else
    match Article.load fs slug now with
    | .error _ => (.serverError, fs)
    | .ok a => (.redirectDashboard, (Article.save { a with published := true } now fs).2)

example :
    normalize_tags
      [some [79, 110, 101], some [32, 116, 119, 111, 32],
       some [111, 110, 101], some [], none] =
      [[111, 110, 101], [116, 119, 111]] := by decide

theorem dropWhile_dropWhile (p : Nat → Bool) (l : List Nat) :
    (l.dropWhile p).dropWhile p = l.dropWhile p := by
  induction l with
  | nil => simp
  | cons a l ih =>
    by_cases h : p a <;> simp [List.dropWhile_cons, h, ih]

theorem lstrip_lstrip (s : PyStr) : lstrip (lstrip s) = lstrip s :=
  dropWhile_dropWhile _ s

theorem rstrip_rstrip (s : PyStr) : rstrip (rstrip s) = rstrip s := by
  simp only [rstrip, List.reverse_reverse]
  rw [dropWhile_dropWhile]

theorem rstrip_append (s : PyStr) : ∃ t, s = rstrip s ++ t := by
  obtain ⟨t, ht⟩ := List.dropWhile_suffix (l := s.reverse) isSpaceChar
  refine ⟨t.reverse, ?_⟩
  have h2 := congrArg List.reverse ht
  rw [List.reverse_append, List.reverse_reverse] at h2
  exact h2.symm

theorem dropWhile_head_false (p : Nat → Bool) (l : List Nat) :
    ∀ a, (l.dropWhile p).head? = some a → p a = false := by
  induction l with
  | nil => intro a h; exact absurd h (by simp)
  | cons b l ih =>
    intro a h
    by_cases hb : p b
    · exact ih a (by simpa [List.dropWhile_cons, hb] using h)
    · rw [List.dropWhile_cons, if_neg hb, List.head?_cons] at h
      injection h with h
      subst h
      exact Bool.eq_false_iff.mpr hb

theorem lstrip_of_head (s : PyStr)
    (h : ∀ a, s.head? = some a → isSpaceChar a = false) : lstrip s = s := by
  cases s with
  | nil => rfl
  | cons a l =>
    have := h a rfl
    simp [lstrip, List.dropWhile_cons, this]

theorem lstrip_rstrip_lstrip (s : PyStr) :
    lstrip (rstrip (lstrip s)) = rstrip (lstrip s) := by
  apply lstrip_of_head
  intro a ha
  obtain ⟨t, ht⟩ := rstrip_append (lstrip s)
  have hhead : (lstrip s).head? = some a := by
    cases hr : rstrip (lstrip s) with
    | nil => rw [hr] at ha; simp at ha
    | cons b r =>
      rw [hr] at ha
      simp only [List.head?_cons, Option.some.injEq] at ha
      subst ha
      rw [ht, hr]
      simp
  exact dropWhile_head_false isSpaceChar s a (by simpa [lstrip] using hhead)

theorem pyStrip_pyStrip (s : PyStr) : pyStrip (pyStrip s) = pyStrip s := by
  simp only [pyStrip]
  rw [lstrip_rstrip_lstrip, rstrip_rstrip]

theorem isSpaceChar_lowerChar (c : Nat) :
    isSpaceChar (lowerChar c) = isSpaceChar c := by
  by_cases h : 65 ≤ c ∧ c ≤ 90
  · have h1 : lowerChar c = c + 32 := by simp [lowerChar, h]
    have h2 : isSpaceChar (c + 32) = false := by
      simp only [isSpaceChar, Bool.or_eq_false_iff, decide_eq_false_iff_not]
      omega
    have h3 : isSpaceChar c = false := by
      simp only [isSpaceChar, Bool.or_eq_false_iff, decide_eq_false_iff_not]
      omega
    rw [h1, h2, h3]
  · have h1 : lowerChar c = c := by simp [lowerChar, h]
    rw [h1]

theorem isSpaceChar_comp_lowerChar : isSpaceChar ∘ lowerChar = isSpaceChar := by
  funext c
  exact isSpaceChar_lowerChar c

theorem lowerChar_lowerChar (c : Nat) :
    lowerChar (lowerChar c) = lowerChar c := by
  by_cases h : 65 ≤ c ∧ c ≤ 90
  · have h1 : lowerChar c = c + 32 := by simp [lowerChar, h]
    have h2 : lowerChar (c + 32) = c + 32 := by
      have hn : ¬ (65 ≤ c + 32 ∧ c + 32 ≤ 90) := by omega
      simp only [lowerChar]
      rw [if_neg hn]
    rw [h1, h2]
  · have h1 : lowerChar c = c := by simp [lowerChar, h]
    rw [h1, h1]

theorem pyLower_pyLower (s : PyStr) : pyLower (pyLower s) = pyLower s := by
  simp only [pyLower, List.map_map]
  apply List.map_congr_left
  intro c _
  exact lowerChar_lowerChar c

theorem lstrip_pyLower (s : PyStr) : lstrip (pyLower s) = pyLower (lstrip s) := by
  simp only [lstrip, pyLower, List.dropWhile_map, isSpaceChar_comp_lowerChar]

theorem rstrip_pyLower (s : PyStr) : rstrip (pyLower s) = pyLower (rstrip s) := by
  simp only [rstrip, pyLower, ← List.map_reverse, List.dropWhile_map,
    isSpaceChar_comp_lowerChar]

theorem pyStrip_pyLower (s : PyStr) :
    pyStrip (pyLower s) = pyLower (pyStrip s) := by
  simp only [pyStrip]
  rw [lstrip_pyLower, rstrip_pyLower]

theorem normalizeOne_fixed (s : PyStr) (x : PyStr)
    (hx : normalizeOne (some s) = some x) : normalizeOne (some x) = some x := by
  simp only [normalizeOne] at hx ⊢
  split at hx
  · exact absurd hx (by simp)
  · next hne =>
    have hxval : x = pyLower (pyStrip s) := by
      simpa using hx.symm
    have hfix : pyLower (pyStrip x) = x := by
      rw [hxval, pyStrip_pyLower, pyStrip_pyStrip, pyLower_pyLower]
    rw [hfix]
    have : x ≠ [] := by rw [hxval]; exact hne
    simp [this]

theorem mem_pyDedupAux {α : Type} [DecidableEq α] (seen : List α) (l : List α)
    (x : α) (hx : x ∈ pyDedupAux seen l) : x ∈ l := by
  induction l generalizing seen with
  | nil => exact absurd hx (by simp [pyDedupAux])
  | cons a l ih =>
    simp only [pyDedupAux] at hx
    by_cases ha : a ∈ seen
    · rw [if_pos ha] at hx
      exact List.mem_cons_of_mem a (ih seen hx)
    · rw [if_neg ha] at hx
      rcases List.mem_cons.mp hx with h | h
      · exact h ▸ List.mem_cons_self a l
      · exact List.mem_cons_of_mem a (ih (a :: seen) h)

theorem pyDedupAux_nodup {α : Type} [DecidableEq α] (l : List α) :
    ∀ seen : List α,
      (pyDedupAux seen l).Nodup ∧ ∀ x ∈ pyDedupAux seen l, x ∉ seen := by
  induction l with
  | nil => intro seen; simp [pyDedupAux]
  | cons a l ih =>
    intro seen
    simp only [pyDedupAux]
    by_cases ha : a ∈ seen
    · rw [if_pos ha]
      exact ih seen
    · rw [if_neg ha]
      obtain ⟨hnd, hdis⟩ := ih (a :: seen)
      refine ⟨List.nodup_cons.mpr ⟨?_, hnd⟩, ?_⟩
      · intro hmem
        exact hdis a hmem (List.mem_cons_self a seen)
      · intro x hx
        rcases List.mem_cons.mp hx with h | h
        · exact h ▸ ha
        · intro hxseen
          exact hdis x h (List.mem_cons_of_mem a hxseen)

theorem pyDedup_nodup {α : Type} [DecidableEq α] (l : List α) :
    (pyDedup l).Nodup :=
  (pyDedupAux_nodup l []).1

theorem pyDedupAux_eq_self {α : Type} [DecidableEq α] (l : List α) :
    ∀ seen : List α, l.Nodup → (∀ x ∈ l, x ∉ seen) →
      pyDedupAux seen l = l := by
  induction l with
  | nil => intro seen _ _; rfl
  | cons a l ih =>
    intro seen hnd hdis
    simp only [pyDedupAux]
    rw [if_neg (hdis a (List.mem_cons_self a l))]
    congr 1
    apply ih (a :: seen) (List.nodup_cons.mp hnd).2
    intro x hx hxs
    rcases List.mem_cons.mp hxs with h | h
    · exact (List.nodup_cons.mp hnd).1 (h ▸ hx)
    · exact hdis x (List.mem_cons_of_mem a hx) h

theorem pyDedup_eq_self {α : Type} [DecidableEq α] (l : List α)
    (h : l.Nodup) : pyDedup l = l :=
  pyDedupAux_eq_self l [] h (by simp)

theorem filterMap_eq_self_of_forall {α : Type} (g : α → Option α) (l : List α)
    (h : ∀ x ∈ l, g x = some x) : l.filterMap g = l := by
  induction l with
  | nil => rfl
  | cons a l ih =>
    rw [List.filterMap_cons, h a (List.mem_cons_self a l)]
    rw [ih (fun x hx => h x (List.mem_cons_of_mem a hx))]

/-- Claim C9: normalize_tags is idempotent: for every input sequence x (whose
non-string entries are modelled as none), normalize_tags applied to the output
of normalize_tags returns that output unchanged. -/
theorem normalize_tags_idempotent (tags : List (Option PyStr)) :
    normalize_tags ((normalize_tags tags).map some) = normalize_tags tags := by
  set out := tags.filterMap normalizeOne with hout
  set r := normalize_tags tags with hr
  have hperm : (List.insertionSort (· ≤ ·) (pyDedup out)).Perm (pyDedup out) :=
    List.perm_insertionSort _ _
  have hnodup : r.Nodup := by
    rw [hr]
    exact hperm.symm.nodup (pyDedup_nodup out)
  have hsorted : List.Sorted (· ≤ ·) r := by
    rw [hr]
    exact List.sorted_insertionSort _ _
  have hfix : ∀ x ∈ r, normalizeOne (some x) = some x := by
    intro x hx
    have hx1 : x ∈ pyDedup out := hperm.subset hx
    have hx2 : x ∈ out := mem_pyDedupAux [] out x hx1
    obtain ⟨t, _, hts⟩ := List.mem_filterMap.mp (hout ▸ hx2)
    cases t with
    | none => exact absurd hts (by simp [normalizeOne])
    | some s => exact normalizeOne_fixed s x hts
  calc normalize_tags (r.map some)
      = List.insertionSort (· ≤ ·)
          (pyDedup ((r.map some).filterMap normalizeOne)) := rfl
    _ = List.insertionSort (· ≤ ·)
          (pyDedup (r.filterMap (normalizeOne ∘ some))) := by
          rw [List.filterMap_map]
    _ = List.insertionSort (· ≤ ·) (pyDedup r) := by
          rw [filterMap_eq_self_of_forall (normalizeOne ∘ some) r hfix]
    _ = List.insertionSort (· ≤ ·) r := by rw [pyDedup_eq_self r hnodup]
    _ = r := List.Sorted.insertionSort_eq hsorted

theorem succ_iterate (n : Nat) : ∀ m, Nat.succ^[n] m = m + n := by
  induction n with
  | zero => intro m; simp
  | succ k ih =>
    intro m
    rw [Function.iterate_succ_apply, ih]
    omega

theorem pbkdf2_succ (p s i : Nat) :
    pbkdf2_hmac Nat.succ p s i = Nat.pair p s + i := by
  unfold pbkdf2_hmac
  exact succ_iterate i (Nat.pair p s)

/-- Claim C1 (code bug): verifying a password against the value freshly
produced by hash_password for that same password fails, because hash_password
derives the digest with 600000 PBKDF2 iterations while check_password
re-derives it with only 100000. Instantiating the abstract PRF with the
successor function makes the two derivations concretely different for every
password and salt, so check_password returns false, not true. -/
theorem check_password_roundtrip_fails (salt p : Nat) :
    check_password Nat.succ (hash_password Nat.succ salt p) p = false := by
  simp only [check_password, hash_password]
  rw [pbkdf2_succ, pbkdf2_succ]
  simp only [beq_eq_false_iff_ne, ne_eq]
  omega

/-- Claim C2: an admin create-article POST or publish POST whose submitted
csrf_token is absent or differs from the token stored in the session is
answered with a 400 before any business logic runs, and the on-disk article
state is returned unchanged: no file is created, modified or deleted. -/
theorem csrf_mismatch_rejected (sessionToken : Option PyStr) (form : Form)
    (slug : PyStr) (formToken : Option PyStr) (now : Nat) (fs : FS)
    (h : formToken = none ∨ formToken ≠ sessionToken) :
    create_article_post sessionToken form formToken now fs =
        (.badRequest, fs) ∧
      publish_article sessionToken slug formToken now fs = (.badRequest, fs) := by
  have hv : verify_csrf sessionToken formToken = false := by
    cases formToken with
    | none => rfl
    | some t =>
      rcases h with h | h
      · exact absurd h (by simp)
      · have ht : sessionToken ≠ some t := fun he => h (by rw [he])
        simp [verify_csrf, ht]
  constructor
  · simp [create_article_post, hv]
  · simp [publish_article, hv]

theorem csrf_mismatch_rejected_witness :
    create_article_post (some [97]) {} none 0 (fun _ => none) =
        (.badRequest, (fun _ => none : FS)) ∧
      publish_article (some [97]) [98] none 0 (fun _ => none) =
        (.badRequest, (fun _ => none : FS)) :=
  csrf_mismatch_rejected (some [97]) {} [98] none 0 (fun _ => none)
    (Or.inl rfl)

/-- Claim C5: save only ever writes updated_at: a single save stamps
updated_at with the fresh clock value, and any sequence of saves leaves
created_at at the value it was given at first construction. -/
theorem created_at_never_changed (a : Article) (fs : FS) (t : Nat)
    (ts : List Nat) :
    ((a.save t fs).1.created_at = a.created_at ∧
      (a.save t fs).1.updated_at = t) ∧
    (ts.foldl saveStep (a, fs)).1.created_at = a.created_at := by
  refine ⟨⟨rfl, rfl⟩, ?_⟩
  induction ts generalizing a fs with
  | nil => rfl
  | cons t2 ts ih =>
    rw [List.foldl_cons]
    exact ih _ _

/-- Claim C8: delete on an existing slug removes exactly that file and a
subsequent load of the slug fails with ArticleNotFound; delete on a missing
slug fails with ArticleNotFound. -/
theorem delete_semantics (fs : FS) (slug : PyStr) (now : Nat) :
    (∀ c, fs slug = some c →
      Article.delete fs slug = (.ok (), fs.update slug none) ∧
      (fs.update slug none) slug = none ∧
      Article.load (fs.update slug none) slug now = .error .notFound ∧
      ∀ s, s ≠ slug → (fs.update slug none) s = fs s) ∧
    (fs slug = none → Article.delete fs slug = (.error .notFound, fs)) := by
  constructor
  · intro c hc
    refine ⟨?_, ?_, ?_, ?_⟩
    · simp [Article.delete, hc]
    · simp [FS.update]
    · simp [Article.load, FS.update]
    · intro s hs
      simp [FS.update, hs]
  · intro h
    simp [Article.delete, h]

theorem delete_semantics_witness :
    Article.delete (fun _ => none : FS) [97] =
      (.error .notFound, (fun _ => none : FS)) :=
  (delete_semantics (fun _ => none) [97] 0).2 rfl

theorem ne_nil_of_pyStrip {s : PyStr} (h : pyStrip s ≠ []) : s ≠ [] := by
  intro he
  subst he
  exact h rfl

/-- Claim C3: for every valid article record (non-empty slug, title, excerpt
and content after trimming), save followed by load on the same slug returns a
record equal to the saved one in slug, title, excerpt, content, tags,
published and created_at, with updated_at refreshed to the save-time clock
value, which is at least its value before the save. -/
theorem save_load_roundtrip (a : Article) (fs : FS) (t now : Nat)
    (hslug : pyStrip a.slug ≠ []) (htitle : pyStrip a.title ≠ [])
    (hexcerpt : pyStrip a.excerpt ≠ []) (hcontent : pyStrip a.content ≠ [])
    (ht : a.updated_at ≤ t) :
    Article.load (a.save t fs).2 a.slug now = .ok { a with updated_at := t } ∧
      a.updated_at ≤ ({ a with updated_at := t } : Article).updated_at := by
  have h1 : a.slug ≠ [] := ne_nil_of_pyStrip hslug
  have h2 : a.title ≠ [] := ne_nil_of_pyStrip htitle
  have h3 : a.excerpt ≠ [] := ne_nil_of_pyStrip hexcerpt
  have h4 : a.content ≠ [] := ne_nil_of_pyStrip hcontent
  refine ⟨?_, ht⟩
  simp [Article.save, Article.load, FS.update, Article.to_dict,
    Article.from_dict, truthyStr, h1, h2, h3, h4]

theorem save_load_roundtrip_witness :
    Article.load
        (Article.save
          { slug := [97], title := [98], excerpt := [99], content := [100],
            tags := [], published := false, created_at := 0, updated_at := 0 }
          1 (fun _ => none)).2 [97] 2 =
      .ok { slug := [97], title := [98], excerpt := [99], content := [100],
            tags := [], published := false, created_at := 0,
            updated_at := 1 } ∧
      (0 : Nat) ≤ 1 :=
  save_load_roundtrip
    { slug := [97], title := [98], excerpt := [99], content := [100],
      tags := [], published := false, created_at := 0, updated_at := 0 }
    (fun _ => none) 1 2 (by decide) (by decide) (by decide) (by decide)
    (by decide)

/-- Claim C4 counterexample: the claim says a stored record whose title is
only whitespace is rejected by load; in the code the required-field check is
Python truthiness, which accepts any non-empty string, so a record whose title
is a single space loads successfully. -/
theorem load_accepts_whitespace_title :
    Article.load
        (fun s => if s = [97] then
            some (.json { slug := some [97], title := some [32],
                          excerpt := some [98], content := some [99] })
          else none) [97] 5 =
      .ok { slug := [97], title := [32], excerpt := [98], content := [99],
            tags := [], published := false, created_at := 5,
            updated_at := 5 } := by
  rfl

/-- Claim C4 (amended): load fails with ArticleNotFound when the backing file
does not exist, and with a ValidationError when the JSON is malformed or a
required field among slug, title, excerpt, content is absent or the empty
string; the check is Python truthiness, not emptiness after trimming, so a
whitespace-only field is accepted. -/
theorem load_error_cases (fs : FS) (slug : PyStr) (now : Nat) :
    (fs slug = none → Article.load fs slug now = .error .notFound) ∧
    (fs slug = some .malformed →
      Article.load fs slug now = .error .validationError) ∧
    (∀ d, fs slug = some (.json d) →
      (d.slug = none ∨ d.slug = some [] ∨ d.title = none ∨ d.title = some [] ∨
        d.excerpt = none ∨ d.excerpt = some [] ∨
        d.content = none ∨ d.content = some []) →
      Article.load fs slug now = .error .validationError) := by
  refine ⟨?_, ?_, ?_⟩
  · intro h
    simp [Article.load, h]
  · intro h
    simp [Article.load, h]
  · intro d hd hbad
    rcases hbad with h | h | h | h | h | h | h | h <;>
      simp [Article.load, hd, Article.from_dict, truthyStr, h]

theorem load_error_cases_witness :
    Article.load (fun _ => none : FS) [97] 0 = .error .notFound :=
  (load_error_cases (fun _ => none) [97] 0).1 rfl

/-- Claim C10: for every create form whose slug and title are valid but whose
content or excerpt is empty after trimming, create_from_form raises no error
and writes the record to disk, and a subsequent load of that slug fails with a
ValidationError: creation does not enforce the non-emptiness that load
requires. -/
theorem create_unvalidated_then_load_fails (form : Form) (now now2 : Nat)
    (fs : FS)
    (hslug : validate_slug (pyStrip (form.slug.getD [])) = true)
    (htitle : validate_title (pyStrip (form.title.getD [])) = true)
    (hempty : pyStrip (form.content.getD []) = [] ∨
      pyStrip (form.excerpt.getD []) = []) :
    ∃ a fs2, create_from_form form now fs = .ok (a, fs2) ∧
      (∃ c, fs2 (pyStrip (form.slug.getD [])) = some c) ∧
      Article.load fs2 (pyStrip (form.slug.getD [])) now2 =
        .error .validationError := by
  simp only [create_from_form, hslug, htitle, not_true, if_false,
    Article.save]
  refine ⟨_, _, rfl, ?_, ?_⟩
  · simp [FS.update]
  · rcases hempty with h | h <;>
      simp [Article.load, FS.update, Article.to_dict,
        Article.from_dict, truthyStr, h]

theorem create_unvalidated_then_load_fails_witness :
    ∃ a fs2,
      create_from_form { slug := some [97], title := some [98] } 0
          (fun _ => none) = .ok (a, fs2) ∧
      (∃ c, fs2 (pyStrip ((some [97] : Option PyStr).getD [])) = some c) ∧
      Article.load fs2 (pyStrip ((some [97] : Option PyStr).getD [])) 1 =
        .error .validationError :=
  create_unvalidated_then_load_fails { slug := some [97], title := some [98] }
    0 1 (fun _ => none) (by decide) (by decide) (Or.inl (by decide))

/-- Claim C6: for a fresh temporary name, if atomic_write fails after the
temporary file is created (at the write or at the replace) the temporary file
is removed and the target path and every other path keep their previous
content; on the success path the target holds exactly the new payload and
every other path is unchanged; on both paths no temporary file remains. -/
theorem atomic_write_atomic (fs : ByteFS) (path tmp data : PyStr)
    (fail : WriteFailure) (_htmp : fs tmp = none) (hne : tmp ≠ path) :
    ((atomic_write fs path tmp data fail).2 tmp = none) ∧
    (fail ≠ .ok →
      (atomic_write fs path tmp data fail).1 = false ∧
      ∀ q, q ≠ tmp → (atomic_write fs path tmp data fail).2 q = fs q) ∧
    (fail = .ok →
      (atomic_write fs path tmp data fail).1 = true ∧
      (atomic_write fs path tmp data fail).2 path = some data ∧
      ∀ q, q ≠ tmp → q ≠ path →
        (atomic_write fs path tmp data fail).2 q = fs q) := by
  cases fail with
  | atWrite =>
    refine ⟨?_, fun _ => ⟨rfl, ?_⟩, fun h => absurd h (by decide)⟩
    · simp [atomic_write, writeUpdate]
    · intro q hq
      simp [atomic_write, writeUpdate, hq]
  | atReplace =>
    refine ⟨?_, fun _ => ⟨rfl, ?_⟩, fun h => absurd h (by decide)⟩
    · simp [atomic_write, writeUpdate]
    · intro q hq
      simp [atomic_write, writeUpdate, hq]
  | ok =>
    refine ⟨?_, fun h => absurd rfl h, fun _ => ⟨rfl, ?_, ?_⟩⟩
    · simp [atomic_write, writeUpdate]
    · simp [atomic_write, writeUpdate, hne, Ne.symm hne]
    · intro q hq hqp
      simp [atomic_write, writeUpdate, hq, hqp]

theorem atomic_write_atomic_witness :
    ((atomic_write (fun _ => none) [112] [116] [100] .atReplace).2 [116] =
        none) ∧
    (WriteFailure.atReplace ≠ .ok →
      (atomic_write (fun _ => none) [112] [116] [100] .atReplace).1 = false ∧
      ∀ q, q ≠ [116] →
        (atomic_write (fun _ => none : ByteFS) [112] [116] [100]
            .atReplace).2 q = none) ∧
    (WriteFailure.atReplace = .ok →
      (atomic_write (fun _ => none) [112] [116] [100] .atReplace).1 = true ∧
      (atomic_write (fun _ => none) [112] [116] [100] .atReplace).2 [112] =
        some [100] ∧
      ∀ q, q ≠ [116] → q ≠ [112] →
        (atomic_write (fun _ => none : ByteFS) [112] [116] [100]
            .atReplace).2 q = none) :=
  atomic_write_atomic (fun _ => none) [112] [116] [100] .atReplace rfl
    (by decide)

theorem map_snd_filterMap_named (l : List (PyStr × FileContent)) (now : Nat) :
    (l.filterMap
      (fun f => (tryParse now f.2).map (fun a => (f.1, a)))).map Prod.snd =
      l.filterMap (fun f => tryParse now f.2) := by
  induction l with
  | nil => rfl
  | cons f l ih =>
    cases h : tryParse now f.2 <;>
      simp [List.filterMap_cons, h, ih]

theorem allNamed_snd (dir : DirListing) (now : Nat) :
    (allNamed dir now).map Prod.snd = Article.all dir now :=
  map_snd_filterMap_named (List.insertionSort nameLe dir) now

theorem named_names_sublist (l : List (PyStr × FileContent)) (now : Nat) :
    ((l.filterMap
        (fun f => (tryParse now f.2).map (fun a => (f.1, a)))).map
      Prod.fst).Sublist (l.map Prod.fst) := by
  induction l with
  | nil => simp
  | cons f l ih =>
    cases h : tryParse now f.2 with
    | none =>
      simp only [List.filterMap_cons, h, Option.map_none, List.map_cons]
      exact ih.cons _
    | some a =>
      simp only [List.filterMap_cons, h, Option.map_some, List.map_cons]
      exact ih.cons₂ _

theorem allNamed_sorted (dir : DirListing) (now : Nat) :
    List.Sorted (· ≤ ·) ((allNamed dir now).map Prod.fst) := by
  have hs : List.Sorted nameLe (List.insertionSort nameLe dir) :=
    List.sorted_insertionSort _ _
  have hmap :
      List.Sorted (· ≤ ·)
        ((List.insertionSort nameLe dir).map Prod.fst) :=
    hs.map Prod.fst (fun _ _ h => h)
  exact hmap.sublist (named_names_sublist _ _)

theorem filterMap_orderedInsert_none {α β : Type} (r : α → α → Prop)
    [DecidableRel r] (g : α → Option β) (x : α) (hx : g x = none)
    (l : List α) :
    (List.orderedInsert r x l).filterMap g = l.filterMap g := by
  induction l with
  | nil => simp [List.orderedInsert, List.filterMap_cons, hx]
  | cons b l ih =>
    simp only [List.orderedInsert]
    by_cases h : r x b
    · rw [if_pos h]
      simp [List.filterMap_cons, hx]
    · rw [if_neg h]
      simp only [List.filterMap_cons]
      rw [ih]

/-- Claim C7: Article.all returns exactly the records of the files that parse
and validate (as a permutation of the file-by-file parse results), the result
is listed in ascending order of file name, and a file that fails to parse or
validate is silently omitted without raising and without affecting the other
records. -/
theorem list_all_spec (dir : DirListing) (now : Nat) :
    (Article.all dir now).Perm (dir.filterMap (fun f => tryParse now f.2)) ∧
    (allNamed dir now).map Prod.snd = Article.all dir now ∧
    List.Sorted (· ≤ ·) ((allNamed dir now).map Prod.fst) ∧
    (∀ n c, tryParse now c = none →
      Article.all ((n, c) :: dir) now = Article.all dir now) := by
  refine ⟨?_, allNamed_snd dir now, allNamed_sorted dir now, ?_⟩
  · exact (List.perm_insertionSort nameLe dir).filterMap _
  · intro n c hc
    show (List.insertionSort nameLe ((n, c) :: dir)).filterMap _ = _
    rw [List.insertionSort]
    exact filterMap_orderedInsert_none nameLe _ (n, c) hc _

theorem list_all_spec_witness :
    Article.all [([97], .malformed)] 0 = Article.all [] 0 :=
  (list_all_spec [] 0).2.2.2 [97] .malformed rfl
